import Mathlib

/-!
Verification of the delay/loss emulation core of the ION delayed
convergence-layer daemons (udpmarsdelaycli/clo, udpmoondelaycli/clo,
udppresetdelaycli/clo).

Times are modelled as `struct timeval` pairs of natural numbers; all
delays are given in whole microseconds (the daemons convert their
floating-point delay, in seconds, to a `long long` count of
microseconds before using it, so a natural-number count of
microseconds is the value the queue code actually manipulates).
Payloads and ZCO handles are opaque naturals.  The `rand()` stream is
an explicit function `Nat → Nat` together with the index of the next
draw to be consumed.
-/

namespace IonDelay

/-! ## Time model: `struct timeval` and the daemons' time arithmetic -/

/-- `struct timeval`: seconds and microseconds.  Values read from
`gettimeofday` always satisfy `usec < 1000000`. -/
structure Timeval where
  sec : Nat
  usec : Nat
deriving DecidableEq, Repr

/-- Total number of microseconds represented by a `timeval`. -/
def Timeval.total (t : Timeval) : Nat := t.sec * 1000000 + t.usec

/-- The daemons' delay addition: `tv_usec += delayMicroseconds;` followed
by the normalization loop `while (tv_usec >= 1000000) { tv_sec++;
tv_usec -= 1000000; }` (e.g. udpmarsdelaycli.c lines 115-121).  The loop
terminates with `usec = (usec₀ + d) % 1000000` after incrementing `sec`
exactly `(usec₀ + d) / 1000000` times. -/
def Timeval.addUsec (t : Timeval) (d : Nat) : Timeval :=
  ⟨t.sec + (t.usec + d) / 1000000, (t.usec + d) % 1000000⟩

/-- The readiness comparison used by every scan:
`now.tv_sec > bundle->processTime.tv_sec || (now.tv_sec ==
bundle->processTime.tv_sec && now.tv_usec >= bundle->processTime.tv_usec)`
(udpmarsdelaycli.c lines 169-171). -/
def readyAt (now pt : Timeval) : Bool :=
  decide (pt.sec < now.sec) ||
    (decide (now.sec = pt.sec) && decide (pt.usec ≤ now.usec))

theorem Timeval.addUsec_total (t : Timeval) (d : Nat) :
    (t.addUsec d).total = t.total + d := by
  simp only [Timeval.addUsec, Timeval.total]
  omega

theorem Timeval.addUsec_usec_lt (t : Timeval) (d : Nat) :
    (t.addUsec d).usec < 1000000 := by
  simp only [Timeval.addUsec]
  omega

/-- On normalized timevals the field-wise readiness test is exactly the
comparison of total microsecond counts. -/
theorem readyAt_iff_total_le (now pt : Timeval)
    (hn : now.usec < 1000000) (hp : pt.usec < 1000000) :
    readyAt now pt = true ↔ pt.total ≤ now.total := by
  simp only [readyAt, Timeval.total, Bool.or_eq_true, Bool.and_eq_true,
    decide_eq_true_eq]
  omega

/-! ## udpmarsdelaycli: single-threaded bounded queue

The queue is an array `bundles[MAX_QUEUED_BUNDLES]` with a `count`;
the live prefix is modelled as a list. -/

abbrev MAX_QUEUED_BUNDLES : Nat := 100

/-- A queued inbound bundle (udpmarsdelaycli.c `QueuedBundle`): payload
data (opaque id), length, and the computed process time.  The sender
address is irrelevant to the queue logic and omitted. -/
structure QueuedBundle where
  payload : Nat
  length : Nat
  processTime : Timeval
deriving DecidableEq, Repr

/-- `addBundle` (udpmarsdelaycli.c lines 91-125): rejects with -1 (here
`none`) when `queue.count >= MAX_QUEUED_BUNDLES`, otherwise stores the
bundle at index `count` with `processTime = now + delay` and increments
`count`.  The `MTAKE` allocation is modelled as always succeeding;
`delayUsec` is the `(long long)(calculateMarsDelay() * 1000000.0)`
value computed at this admission. -/
def addBundle (q : List QueuedBundle) (payload len : Nat) (now : Timeval)
    (delayUsec : Nat) : Option (List QueuedBundle) :=
  if MAX_QUEUED_BUNDLES ≤ q.length then none
  else some (q ++ [⟨payload, len, now.addUsec delayUsec⟩])

/-- First half of `processReadyBundles` (udpmarsdelaycli.c lines
164-195): every ready bundle is processed, its data freed and its
`length` set to 0 to mark it for removal. -/
def markReady (q : List QueuedBundle) (now : Timeval) : List QueuedBundle :=
  q.map fun b => if readyAt now b.processTime then { b with length := 0 } else b

/-- Second half of `processReadyBundles` (lines 197-209): compaction
keeps exactly the entries with `length > 0`. -/
def compactQueue (q : List QueuedBundle) : List QueuedBundle :=
  q.filter fun b => 0 < b.length

/-- The queue left behind by one `processReadyBundles` scan at time `now`. -/
def processReadyBundles (q : List QueuedBundle) (now : Timeval) :
    List QueuedBundle :=
  compactQueue (markReady q now)

/-- The bundles handed to `processBundle` (and hence to the loss check
and bundle acquisition) during a scan at time `now`: exactly the ready
ones.  (The source re-reads `gettimeofday` before each entry; the times
are nondecreasing, so a single scan time is a faithful model of the
per-item check.) -/
def deliveredBundles (q : List QueuedBundle) (now : Timeval) :
    List QueuedBundle :=
  q.filter fun b => readyAt now b.processTime

/-! ## udpmarsdelayclo: circular buffer with condition variables -/

abbrev MAX_BUFFERED_BUNDLES : Nat := 200

/-- `BufferedBundle` (udpmarsdelayclo.c lines 29-37): ZCO handle,
length, arrival and send times, delay, processed flag.  The ancillary
data does not influence the queue logic and is omitted. -/
structure BufferedBundle where
  bundleZco : Nat
  bundleLength : Nat
  arrivalTime : Timeval
  delayUsec : Nat
  sendTime : Timeval
  processed : Bool
deriving DecidableEq, Repr

/-- `BundleQueue` of udpmarsdelayclo.c (lines 39-48): circular buffer
with head/tail/count, a running flag, and condition variables (the
waiting itself is modelled by the `blocked` outcome below). -/
structure CloQueue where
  bundles : List BufferedBundle
  head : Nat
  tail : Nat
  count : Nat
  running : Bool
deriving DecidableEq, Repr

/-- What one call to an admission routine does *immediately*:
it inserts and returns 0, returns -1, or parks the caller on
`pthread_cond_wait(&queue->notFull, ...)` without returning. -/
inductive CloEnqueueOutcome where
  | inserted (q : CloQueue)
  | rejected
  | blocked
deriving DecidableEq, Repr

/-- `enqueueBundle` (udpmarsdelayclo.c lines 134-178):
`while (queue->count >= MAX_BUFFERED_BUNDLES && queue->running)
pthread_cond_wait(...);` then `if (!queue->running) return -1;`
otherwise the bundle is stored at `tail` with
`sendTime = arrivalTime + delay` computed at this admission,
`tail` advances modulo the capacity and `count` is incremented. -/
def enqueueBundle (q : CloQueue) (zco len : Nat) (now : Timeval)
    (delayUsec : Nat) : CloEnqueueOutcome :=
  if MAX_BUFFERED_BUNDLES ≤ q.count ∧ q.running = true then .blocked
  else if q.running = false then .rejected
  else
    let b : BufferedBundle :=
      ⟨zco, len, now, delayUsec, now.addUsec delayUsec, false⟩
    .inserted { q with
      bundles := q.bundles.set q.tail b
      tail := (q.tail + 1) % MAX_BUFFERED_BUNDLES
      count := q.count + 1 }

/-- The signed sleep computation of `sendSingleBundle`
(udpmarsdelayclo.c lines 192-193):
`(sendTime.tv_sec - now.tv_sec) * 1000000LL + (sendTime.tv_usec -
now.tv_usec)`. -/
def sleepMicros (now sendTime : Timeval) : Int :=
  ((sendTime.sec : Int) - (now.sec : Int)) * 1000000 +
    ((sendTime.usec : Int) - (now.usec : Int))

/-- The moment (total microseconds) at which `sendSingleBundle` reaches
its loss check and UDP send: the thread wakes at time `now`, and if
`sleepMicroseconds > 0` it first `microsnooze`s for that long
(lines 195-198). -/
def sendMoment (now sendTime : Timeval) : Int :=
  if 0 < sleepMicros now sendTime then
    (now.total : Int) + sleepMicros now sendTime
  else (now.total : Int)

/-! ## udpmoondelaycli: circular buffer, scan returns one ready bundle -/

abbrev MOON_MAX_BUFFERED_BUNDLES : Nat := 100

/-- `TimedBundle` of udpmoondelaycli.c (lines 35-43). `hasData` models
`data != NULL`. -/
structure TimedBundle where
  hasData : Bool
  payload : Nat
  length : Nat
  arrivalTime : Timeval
  processTime : Timeval
  delayUsec : Nat
  processed : Bool
deriving DecidableEq, Repr

/-- `TimedBundleQueue` of udpmoondelaycli.c (lines 45-54). -/
structure TimedBundleQueue where
  bundles : List TimedBundle
  head : Nat
  tail : Nat
  count : Nat
  running : Bool
deriving DecidableEq, Repr

/-- Immediate outcome of `enqueueTimedBundle`, as for `enqueueBundle`. -/
inductive MoonEnqueueOutcome where
  | inserted (q : TimedBundleQueue)
  | rejected
  | blocked
deriving DecidableEq, Repr

/-- `enqueueTimedBundle` (udpmoondelaycli.c lines 128-179): same
blocking `pthread_cond_wait` admission as `enqueueBundle`, with
`processTime = arrivalTime + delay` computed at this admission
(`MTAKE` modelled as succeeding). -/
def enqueueTimedBundle (q : TimedBundleQueue) (payload len : Nat)
    (now : Timeval) (delayUsec : Nat) : MoonEnqueueOutcome :=
  if MOON_MAX_BUFFERED_BUNDLES ≤ q.count ∧ q.running = true then .blocked
  else if q.running = false then .rejected
  else
    let b : TimedBundle :=
      ⟨true, payload, len, now, now.addUsec delayUsec, delayUsec, false⟩
    .inserted { q with
      bundles := q.bundles.set q.tail b
      tail := (q.tail + 1) % MOON_MAX_BUFFERED_BUNDLES
      count := q.count + 1 }

/-- The slot test of `getReadyBundle`'s scan (udpmoondelaycli.c lines
196-203): a slot is eligible when it holds data, is not yet processed,
and its process time has elapsed. -/
def readySlot (now : Timeval) (b : TimedBundle) : Bool :=
  b.hasData && !b.processed && readyAt now b.processTime

/-- `getReadyBundle` (udpmoondelaycli.c lines 182-218): scans the slots
in index order and, at the *first* eligible slot, marks it processed,
decrements `count`, and returns that single bundle; the scan then
`break`s.  Returns `NULL` (`none`) when no slot is eligible. -/
def getReadyBundle (q : TimedBundleQueue) (now : Timeval) :
    Option (TimedBundle × TimedBundleQueue) :=
  match q.bundles.findIdx? (readySlot now) with
  | none => none
  | some i =>
      match q.bundles[i]? with
      | none => none
      | some b => some (b, { q with
          bundles := q.bundles.set i { b with processed := true }
          count := q.count - 1 })

/-! ## udppresetdelaycli: mutex-guarded array with processed flags -/

abbrev MAX_TIMED_BUNDLES : Nat := 1000

/-- `TimedBundle` of udppresetdelaycli.c (lines 27-34). -/
structure PTimedBundle where
  payload : Nat
  length : Nat
  arrivalTime : Timeval
  processTime : Timeval
  processed : Bool
deriving DecidableEq, Repr

/-- `addTimedBundle` (udppresetdelaycli.c lines 88-127): under the
mutex, rejects with -1 when `count >= MAX_TIMED_BUNDLES` (no waiting),
otherwise appends at index `count` with
`processTime = arrivalTime + delay` and increments `count`. -/
def addTimedBundle (q : List PTimedBundle) (payload len : Nat)
    (now : Timeval) (delayUsec : Nat) : Option (List PTimedBundle) :=
  if MAX_TIMED_BUNDLES ≤ q.length then none
  else some (q ++ [⟨payload, len, now, now.addUsec delayUsec, false⟩])

/-- First half of udppresetdelaycli's `processReadyBundles` (lines
173-197): every unprocessed ready bundle is handed to
`processTimedBundle` and marked processed. -/
def presetMarkReady (q : List PTimedBundle) (now : Timeval) :
    List PTimedBundle :=
  q.map fun b =>
    if !b.processed && readyAt now b.processTime then
      { b with processed := true }
    else b

/-- Compaction (lines 199-215): keeps exactly the unprocessed entries,
freeing the data of processed ones. -/
def presetCompact (q : List PTimedBundle) : List PTimedBundle :=
  q.filter fun b => !b.processed

/-- The queue left behind by one udppresetdelaycli scan at time `now`. -/
def presetProcessReady (q : List PTimedBundle) (now : Timeval) :
    List PTimedBundle :=
  presetCompact (presetMarkReady q now)

/-- The bundles handed to `processTimedBundle` during a scan at `now`. -/
def presetDelivered (q : List PTimedBundle) (now : Timeval) :
    List PTimedBundle :=
  q.filter fun b => !b.processed && readyAt now b.processTime

/-! ## LossModel: `shouldDropBundle`

All six daemons share the same body (e.g. udpmarsdelaycli.c lines
47-56).  `LINK_LOSS_PERCENTAGE` is a compile-time `double`; we model it
and the computed `random` value as exact rationals.  `g` is the
`rand()` stream and `i` the index of the next draw; the returned index
records how many draws were consumed. -/

/-- `RAND_MAX` on the target platform (glibc): `2^31 - 1`. -/
abbrev C_RAND_MAX : Nat := 2147483647

/-- `((double)rand() / RAND_MAX) * 100.0` for a draw `r`. -/
def randomPercent (r : Nat) : ℚ := ((r : ℚ) / (C_RAND_MAX : ℚ)) * 100

/-- `shouldDropBundle`: `if (LINK_LOSS_PERCENTAGE <= 0.0) return 0;`
(no draw consumed), else draw once and drop iff `random < p`. -/
def shouldDropBundle (p : ℚ) (g : Nat → Nat) (i : Nat) : Bool × Nat :=
  if p ≤ 0 then (false, i)
  else (decide (randomPercent (g i) < p), i + 1)

/-- Number of drops over a run of `n` successive loss decisions. -/
def runDrops (p : ℚ) (g : Nat → Nat) : Nat → Nat → Nat
  | _, 0 => 0
  | i, n + 1 =>
      let r := shouldDropBundle p g i
      (if r.1 then 1 else 0) + runDrops p g r.2 n

/-! ## RateLimiter

`udpmarsdelayclo.c` main loop, lines 507-563.  `totalPaid`,
`currentPaid`, `totalCost`, `balanceDue` and `prevPaid` are C
`unsigned int`; the elapsed time is truncated to 32 bits on assignment
to `totalPaid`.  `cost` is the already-converted
`(unsigned int)(timeCostPerByte * computeECCC(bundleLength) * 1e6)`
value in microseconds (0 when no neighbor transmission rate is known,
lines 538-545). -/

abbrev UINT_MOD : Nat := 4294967296

/-- One billing iteration of udpmarsdelayclo: given the elapsed
microseconds since the previous billing timestamp, the previous
balance, and the cost of this segment, returns (microseconds slept,
new `prevPaid`). -/
def marsRateStep (elapsed prevPaid cost : Nat) : Nat × Nat :=
  let totalPaid := elapsed % UINT_MOD
  let currentPaid := if prevPaid ≤ totalPaid then totalPaid - prevPaid else 0
  let balanceDue := if currentPaid < cost then cost - currentPaid else 0
  (balanceDue, balanceDue)

/-- Modelled from the spec (spec.md section 4.5, steps 1-5):
`credit = max(0, elapsed - prevBalance)`,
`balanceDue = max(0, cost - credit)`. -/
def specBalanceDue (elapsed prevBalance cost : Int) : Int :=
  max 0 (cost - max 0 (elapsed - prevBalance))

/-- The pacing sleep of udppresetdelayclo's `processReadyBundles`
(lines 146-158): apply rate control only when the send succeeded and a
neighbor transmission rate is known, and then sleep the *full* cost of
the segment — there is no credit for elapsed time and no carried
balance. -/
def presetRateSleep (sendOk rateKnown : Bool) (cost : Nat) : Nat :=
  if sendOk && rateKnown then cost else 0

/-! ## Bundle acquisition call sequences -/

/-- The protocol-core acquisition entry points. -/
inductive AcqCall where
  | beginAcq
  | continueAcq
  | endAcq
  | cancelAcq
deriving DecidableEq, Repr

/-- Success (`>= 0`) of each acquisition step, were it to be called. -/
structure AcqResults where
  beginOk : Bool
  continueOk : Bool
  endOk : Bool
deriving DecidableEq, Repr

/-- Acquisition calls made by udpmarsdelaycli's `processBundle` (lines
136-155), paired with its return code: a failing `bpBeginAcq` stops the
sequence; a failing `bpContinueAcq` is followed by `bpCancelAcq`; a
failing `bpEndAcq` just returns -1. -/
def marsAcqCalls (r : AcqResults) : List AcqCall × Int :=
  if r.beginOk = false then ([.beginAcq], -1)
  else if r.continueOk = false then
    ([.beginAcq, .continueAcq, .cancelAcq], -1)
  else if r.endOk = false then ([.beginAcq, .continueAcq, .endAcq], -1)
  else ([.beginAcq, .continueAcq, .endAcq], 0)

/-- Acquisition calls made by the short-circuiting chain
`bpBeginAcq(...) < 0 || bpContinueAcq(...) < 0 || bpEndAcq(...) < 0`
of udpmoondelaycli's `processTimedBundle` (lines 240-248) and
udppresetdelaycli's `processTimedBundle` (lines 139-144): a failing
step stops the sequence, and no path calls `bpCancelAcq`. -/
def chainAcqCalls (r : AcqResults) : List AcqCall × Int :=
  if r.beginOk = false then ([.beginAcq], -1)
  else if r.continueOk = false then ([.beginAcq, .continueAcq], -1)
  else if r.endOk = false then ([.beginAcq, .continueAcq, .endAcq], -1)
  else ([.beginAcq, .continueAcq, .endAcq], 0)

/-! ## Release-time action traces

For each daemon, the sequence of observable actions taken on a single
ready bundle, as a function of the loss decision and of the success of
the external calls.  `acquire` abbreviates the begin/continue/end
sequence analysed above. -/

inductive SendAct where
  | dropCheck
  | sleepResidual
  | acquire
  | sendUdp
  | zcoDestroy
  | freeData
  | markProcessed
  | rateSleep
  | logErr
deriving DecidableEq, Repr

/-- udpmarsdelaycli: `processBundle` (lines 128-156) plus its caller,
which logs on failure and unconditionally frees the bundle data
(`processReadyBundles` lines 180-189). -/
def marsCliReleaseTrace (drop acqOk : Bool) : List SendAct :=
  [SendAct.dropCheck] ++
    (if drop then []
     else [SendAct.acquire] ++ (if acqOk then [] else [SendAct.logErr])) ++
    [SendAct.freeData]

/-- udpmoondelaycli: `processTimedBundle` (lines 222-255).  The drop
path releases the data and returns 0; the failure path logs, releases
and returns -1; the success path releases after acquisition. -/
def moonCliReleaseTrace (drop acqOk : Bool) : List SendAct :=
  [SendAct.dropCheck] ++
    (if drop then [SendAct.freeData]
     else [SendAct.acquire] ++
       (if acqOk then [SendAct.freeData]
        else [SendAct.logErr, SendAct.freeData]))

/-- udppresetdelaycli: `processTimedBundle` (lines 130-148) plus its
caller, which logs on failure, marks the slot processed and frees the
data during compaction (`processReadyBundles` lines 190-213). -/
def presetCliReleaseTrace (drop acqOk : Bool) : List SendAct :=
  [SendAct.dropCheck] ++
    (if drop then []
     else [SendAct.acquire] ++ (if acqOk then [] else [SendAct.logErr])) ++
    [SendAct.markProcessed, SendAct.freeData]

/-- udpmarsdelayclo: `sendSingleBundle` (lines 181-221).  The drop path
marks the bundle processed and returns without sending — and without
any `zco_destroy` of the bundle's ZCO. -/
def sendSingleBundleTrace (needSleep drop sendOk : Bool) : List SendAct :=
  (if needSleep then [SendAct.sleepResidual] else []) ++
    [SendAct.dropCheck] ++
    (if drop then [SendAct.markProcessed]
     else [SendAct.sendUdp] ++ (if sendOk then [] else [SendAct.logErr]) ++
       [SendAct.markProcessed])

/-- udpmoondelayclo: `sendBundle` (lines 142-189).  The drop path
destroys the bundle's ZCO; the success path sends and then destroys
the ZCO. -/
def moonCloSendTrace (drop readOk sendOk : Bool) : List SendAct :=
  [SendAct.dropCheck] ++
    (if drop then [SendAct.zcoDestroy]
     else if readOk = false then [SendAct.logErr]
     else [SendAct.sendUdp] ++
       (if sendOk then [SendAct.zcoDestroy] else [SendAct.logErr]))

/-- udppresetdelayclo: the per-ready-bundle body of
`processReadyBundles` (lines 128-161).  The drop path marks the bundle
processed and moves on — without any `zco_destroy`.  `rateKnown` is
`neighbor && neighbor->xmitRate > 0` with a positive cost. -/
def presetCloSendTrace (drop sendOk rateKnown : Bool) : List SendAct :=
  [SendAct.dropCheck] ++
    (if drop then [SendAct.markProcessed]
     else [SendAct.sendUdp] ++
       (if sendOk then (if rateKnown then [SendAct.rateSleep] else [])
        else [SendAct.logErr]) ++
       [SendAct.markProcessed])

/-! ## Main-loop reactions to recoverable errors -/

/-- Whether the enclosing processing loop keeps running after a step,
and whether the step produced a log entry. -/
structure LoopOutcome where
  keepRunning : Bool
  logged : Bool
deriving DecidableEq, Repr

/-- udpmarsdelaycli main loop reaction to a received datagram (lines
414-430): a queue-full `addBundle` failure logs and keeps running; a
1-byte datagram is the stop signal; a receive error logs and stops. -/
def marsCliRecvStep (bundleLength : Int) (admitOk : Bool) : LoopOutcome :=
  if 1 < bundleLength then
    if admitOk then ⟨true, false⟩ else ⟨true, true⟩
  else if bundleLength = 1 then ⟨false, false⟩
  else if bundleLength < 0 then ⟨false, true⟩
  else ⟨true, false⟩

/-- udpmarsdelaycli `processReadyBundles` reaction to a `processBundle`
failure (lines 181-183): log and continue the scan and the main loop. -/
def marsCliProcStep (procOk : Bool) : LoopOutcome :=
  if procOk then ⟨true, false⟩ else ⟨true, true⟩

/-- udpmoondelaycli receiver-thread reaction to an
`enqueueTimedBundle` failure (lines 316-320): log and continue. -/
def moonCliEnqueueStep (enqOk : Bool) : LoopOutcome :=
  if enqOk then ⟨true, false⟩ else ⟨true, true⟩

/-- udpmoondelaycli main loop body (lines 482-497): when
`processTimedBundle` fails, the daemon logs, sets `g_running = 0` and
`rtp.running = 0`, and `break`s out of the loop. -/
def moonCliMainStep (ready procOk : Bool) : LoopOutcome :=
  if ready then (if procOk then ⟨true, false⟩ else ⟨false, true⟩)
  else ⟨true, false⟩

/-! ## Helper lemmas -/

theorem sendMoment_ge (t st : Timeval) : (st.total : Int) ≤ sendMoment t st := by
  simp only [sendMoment, sleepMicros, Timeval.total]
  split <;> push_cast <;> omega

theorem length_filter_add_length_filter_not {α : Type _} (p : α → Bool)
    (l : List α) :
    (l.filter p).length + (l.filter fun a => !(p a)).length = l.length := by
  induction l with
  | nil => rfl
  | cons x xs ih =>
      by_cases h : p x <;> simp [List.filter_cons, h] <;> omega

theorem findIdx?_some_pred {α : Type _} (p : α → Bool) :
    ∀ (l : List α) (s i : Nat), List.findIdx? p l s = some i →
      s ≤ i ∧ ∃ a, l[i - s]? = some a ∧ p a = true := by
  intro l
  induction l with
  | nil => intro s i h; simp [List.findIdx?] at h
  | cons x xs ih =>
      intro s i h
      rw [List.findIdx?_cons] at h
      by_cases hx : p x
      · rw [if_pos hx] at h
        obtain rfl : s = i := by injection h
        exact ⟨le_refl _, x, by simp, hx⟩
      · rw [if_neg hx] at h
        obtain ⟨hs, a, ha, hpa⟩ := ih (s + 1) i h
        refine ⟨by omega, a, ?_, hpa⟩
        have : i - s = (i - (s + 1)) + 1 := by omega
        rw [this]
        simpa using ha

theorem processReadyBundles_eq_filter (q : List QueuedBundle) (now : Timeval)
    (h : ∀ b ∈ q, 0 < b.length) :
    processReadyBundles q now =
      q.filter fun b => !(readyAt now b.processTime) := by
  induction q with
  | nil => rfl
  | cons x xs ih =>
      have hx : 0 < x.length := h x (by simp)
      have hxs : ∀ b ∈ xs, 0 < b.length := fun b hb => h b (by simp [hb])
      simp only [processReadyBundles, markReady, compactQueue, List.map_cons,
        List.filter_cons] at *
      by_cases hr : readyAt now x.processTime
      · simpa [hr] using ih hxs
      · simpa [hr, hx] using ih hxs

theorem getReadyBundle_spec (q : TimedBundleQueue) (now : Timeval)
    (b : TimedBundle) (q' : TimedBundleQueue)
    (h : getReadyBundle q now = some (b, q')) :
    readySlot now b = true ∧ b.processed = false ∧
    ∃ i, q.bundles[i]? = some b ∧
      q'.bundles = q.bundles.set i { b with processed := true } := by
  rw [getReadyBundle] at h
  split at h
  · exact absurd h (by simp)
  · rename_i i hfind
    split at h
    · exact absurd h (by simp)
    · rename_i b0 hget
      injection h with hp
      injection hp with hb hq
      subst hb
      subst hq
      obtain ⟨-, a, ha, hpa⟩ :=
        findIdx?_some_pred (readySlot now) q.bundles 0 i hfind
      rw [Nat.sub_zero] at ha
      rw [ha] at hget
      injection hget with hab
      subst hab
      have hproc : a.processed = false := by
        have h2 := hpa
        simp only [readySlot, Bool.and_eq_true, Bool.not_eq_true'] at h2
        exact h2.1.2
      exact ⟨hpa, hproc, i, ha, rfl⟩

theorem presetProcessReady_eq_filter (q : List PTimedBundle) (now : Timeval)
    (h : ∀ b ∈ q, b.processed = false) :
    presetProcessReady q now =
      q.filter fun b => !(readyAt now b.processTime) := by
  induction q with
  | nil => rfl
  | cons x xs ih =>
      have hx : x.processed = false := h x (by simp)
      have hxs : ∀ b ∈ xs, b.processed = false := fun b hb => h b (by simp [hb])
      simp only [presetProcessReady, presetMarkReady, presetCompact,
        List.map_cons, List.filter_cons] at *
      by_cases hr : readyAt now x.processTime
      · simpa [hr, hx] using ih hxs
      · simpa [hr, hx] using ih hxs

/-! ## Claim theorems -/

/-- C1: in every daemon variant, for every item admitted to the delay
queue, delivery (handing the payload to bundle acquisition, or
reaching the loss check and UDP send) never occurs before the item's
release time `arrivalTime + delay`, where the delay is the one
computed at that item's own admission: the udpmarsdelaycli scan only
delivers an admitted bundle once its process time — set at admission
to arrival + delay — has elapsed; `sendSingleBundle` never reaches its
send before the bundle's send time; `enqueueTimedBundle` and
`addTimedBundle` stamp release times of arrival + delay, and
`getReadyBundle` and the udppresetdelaycli scan only release items
whose stamped time has elapsed. -/
theorem c1_no_early_delivery :
    (∀ (q : List QueuedBundle) (payload len : Nat) (a : Timeval) (d : Nat)
        (q' : List QueuedBundle) (t : Timeval) (b : QueuedBundle),
      addBundle q payload len a d = some q' →
      b ∈ deliveredBundles q' t → b ∉ deliveredBundles q t →
      t.usec < 1000000 →
      a.total + d ≤ t.total)
    ∧ (∀ (cq : CloQueue) (zco len : Nat) (a : Timeval) (d : Nat)
        (cq' : CloQueue) (b : BufferedBundle) (t : Timeval),
      enqueueBundle cq zco len a d = CloEnqueueOutcome.inserted cq' →
      cq'.bundles[cq.tail]? = some b →
      ((a.total + d : Nat) : Int) ≤ sendMoment t b.sendTime)
    ∧ (∀ (q : TimedBundleQueue) (p l : Nat) (a : Timeval) (d : Nat)
        (q' : TimedBundleQueue) (b : TimedBundle),
      enqueueTimedBundle q p l a d = MoonEnqueueOutcome.inserted q' →
      q'.bundles[q.tail]? = some b → b.processTime.total = a.total + d)
    ∧ (∀ (q : TimedBundleQueue) (now : Timeval) (b : TimedBundle)
        (q' : TimedBundleQueue),
      getReadyBundle q now = some (b, q') → now.usec < 1000000 →
      b.processTime.usec < 1000000 → b.processTime.total ≤ now.total)
    ∧ (∀ (q : List PTimedBundle) (p l : Nat) (a : Timeval) (d : Nat)
        (q' : List PTimedBundle),
      addTimedBundle q p l a d = some q' →
      q' = q ++ [⟨p, l, a, a.addUsec d, false⟩]
      ∧ (a.addUsec d).total = a.total + d)
    ∧ (∀ (q : List PTimedBundle) (now : Timeval) (b : PTimedBundle),
      b ∈ presetDelivered q now → now.usec < 1000000 →
      b.processTime.usec < 1000000 → b.processTime.total ≤ now.total) := by
  refine ⟨?_, ?_, ?_, ?_, ?_, ?_⟩
  · intro q payload len a d q' t b hadd hmem hnot ht
    by_cases hfull : MAX_QUEUED_BUNDLES ≤ q.length
    · simp [addBundle, hfull] at hadd
    · rw [addBundle, if_neg hfull] at hadd
      injection hadd with hq
      subst hq
      simp only [deliveredBundles, List.filter_append] at hmem
      rcases List.mem_append.mp hmem with h | h
      · exact absurd h hnot
      · obtain ⟨hb, hready⟩ := List.mem_filter.mp h
        have hbe : b = ⟨payload, len, a.addUsec d⟩ := by simpa using hb
        subst hbe
        have h1 : (a.addUsec d).total ≤ t.total :=
          (readyAt_iff_total_le t _ ht (Timeval.addUsec_usec_lt a d)).mp hready
        rwa [Timeval.addUsec_total] at h1
  · intro cq zco len a d cq' b t henq hget
    rw [enqueueBundle] at henq
    split at henq
    · exact absurd henq (by simp)
    · split at henq
      · exact absurd henq (by simp)
      · injection henq with hq
        subst hq
        rcases Nat.lt_or_ge cq.tail cq.bundles.length with hlt | hge
        · rw [List.getElem?_set_self hlt] at hget
          injection hget with hb
          subst hb
          have := sendMoment_ge t (a.addUsec d)
          rwa [Timeval.addUsec_total] at this
        · rw [List.getElem?_set, if_pos rfl, if_neg (by omega)] at hget
          exact absurd hget (by simp)
  · intro q p l a d q' b henq hget
    rw [enqueueTimedBundle] at henq
    split at henq
    · exact absurd henq (by simp)
    · split at henq
      · exact absurd henq (by simp)
      · injection henq with hq
        subst hq
        rcases Nat.lt_or_ge q.tail q.bundles.length with hlt | hge
        · rw [List.getElem?_set_self hlt] at hget
          injection hget with hb
          subst hb
          exact Timeval.addUsec_total a d
        · rw [List.getElem?_set, if_pos rfl, if_neg (by omega)] at hget
          exact absurd hget (by simp)
  · intro q now b q' h hn hp
    have hs := (getReadyBundle_spec q now b q' h).1
    simp only [readySlot, Bool.and_eq_true] at hs
    exact (readyAt_iff_total_le now b.processTime hn hp).mp hs.2
  · intro q p l a d q' h
    rw [addTimedBundle] at h
    split at h
    · exact absurd h (by simp)
    · injection h with hq
      exact ⟨hq.symm, Timeval.addUsec_total a d⟩
  · intro q now b hb hn hp
    have h2 := (List.mem_filter.mp hb).2
    simp only [Bool.and_eq_true] at h2
    exact (readyAt_iff_total_le now b.processTime hn hp).mp h2.2

/-- C1 witness: a bundle admitted at time 0 with a 5 microsecond delay
and delivered by the scan at 1 second was not delivered early. -/
theorem c1_no_early_delivery_witness :
    (⟨0, 0⟩ : Timeval).total + 5 ≤ (⟨1, 0⟩ : Timeval).total :=
  c1_no_early_delivery.1 [] 7 2 ⟨0, 0⟩ 5
    [⟨7, 2, Timeval.addUsec ⟨0, 0⟩ 5⟩] ⟨1, 0⟩ ⟨7, 2, Timeval.addUsec ⟨0, 0⟩ 5⟩
    (by decide) (by decide) (by decide) (by decide)

/-! Concrete full queues for the admission-at-capacity analysis. -/

def dummyQueued : QueuedBundle := ⟨0, 2, ⟨0, 0⟩⟩

def dummyTimed : TimedBundle := ⟨true, 0, 2, ⟨0, 0⟩, ⟨0, 0⟩, 0, false⟩

def dummyBuffered : BufferedBundle := ⟨1, 2, ⟨0, 0⟩, 0, ⟨0, 0⟩, false⟩

def dummyPTimed : PTimedBundle := ⟨0, 2, ⟨0, 0⟩, ⟨0, 0⟩, false⟩

/-- A udpmoondelaycli queue holding its full capacity of 100 bundles,
with the daemon still running. -/
def fullMoonQueue : TimedBundleQueue :=
  ⟨List.replicate 100 dummyTimed, 0, 0, 100, true⟩

/-- A udpmarsdelayclo queue holding its full capacity of 200 bundles,
with the daemon still running. -/
def fullCloQueue : CloQueue :=
  ⟨List.replicate 200 dummyBuffered, 0, 0, 200, true⟩

/-- C2: the claim states that every admission attempt made while the
queue is at capacity fails immediately with -1 and does not block.
This holds for `addBundle` (udpmarsdelaycli) and `addTimedBundle`
(udppresetdelaycli/clo), but `enqueueBundle` (udpmarsdelayclo) and
`enqueueTimedBundle` (udpmoondelaycli) park the caller on
`pthread_cond_wait(&queue->notFull, ...)` for as long as the queue is
full and running — they return -1 only once the queue stops running —
even though their callers log the -1 as "queue full" and are commented
"NO BLOCKING HERE". -/
theorem c2_admission_at_capacity :
    enqueueTimedBundle fullMoonQueue 1 2 ⟨0, 0⟩ 5 = MoonEnqueueOutcome.blocked
    ∧ enqueueBundle fullCloQueue 1 2 ⟨0, 0⟩ 5 = CloEnqueueOutcome.blocked
    ∧ addBundle (List.replicate 100 dummyQueued) 1 2 ⟨0, 0⟩ 5 = none
    ∧ addTimedBundle (List.replicate 1000 dummyPTimed) 1 2 ⟨0, 0⟩ 5 = none := by
  refine ⟨rfl, rfl, ?_, ?_⟩
  · rw [addBundle, if_pos (by rw [List.length_replicate])]
  · rw [addTimedBundle, if_pos (by rw [List.length_replicate])]

/-- C3: no operation of any variant makes the number of queued items
exceed the fixed capacity: a successful
`addBundle`/`addTimedBundle` admission leaves at most the capacity,
the udpmarsdelaycli and udppresetdelaycli scans only shrink the queue,
a successful `enqueueTimedBundle` or `enqueueBundle` insertion leaves
`count` at most the capacity (MAX_BUFFERED_BUNDLES for
udpmarsdelayclo), `getReadyBundle` decrements `count`, and an
admission attempted while full never inserts: `addBundle` and
`addTimedBundle` reject immediately and `enqueueBundle` and
`enqueueTimedBundle` block. -/
theorem c3_capacity_invariant :
    (∀ (q : List QueuedBundle) (p l : Nat) (a : Timeval) (d : Nat)
        (q' : List QueuedBundle),
      addBundle q p l a d = some q' → q'.length ≤ MAX_QUEUED_BUNDLES)
    ∧ (∀ (q : List QueuedBundle) (now : Timeval),
      q.length ≤ MAX_QUEUED_BUNDLES →
      (processReadyBundles q now).length ≤ MAX_QUEUED_BUNDLES)
    ∧ (∀ (q : List PTimedBundle) (p l : Nat) (a : Timeval) (d : Nat)
        (q' : List PTimedBundle),
      addTimedBundle q p l a d = some q' → q'.length ≤ MAX_TIMED_BUNDLES)
    ∧ (∀ (q : TimedBundleQueue) (p l : Nat) (a : Timeval) (d : Nat)
        (q' : TimedBundleQueue),
      enqueueTimedBundle q p l a d = MoonEnqueueOutcome.inserted q' →
      q'.count ≤ MOON_MAX_BUFFERED_BUNDLES)
    ∧ (∀ (q : TimedBundleQueue) (now : Timeval) (b : TimedBundle)
        (q' : TimedBundleQueue),
      q.count ≤ MOON_MAX_BUFFERED_BUNDLES →
      getReadyBundle q now = some (b, q') →
      q'.count ≤ MOON_MAX_BUFFERED_BUNDLES)
    ∧ (∀ (q : List QueuedBundle) (p l : Nat) (a : Timeval) (d : Nat),
      MAX_QUEUED_BUNDLES ≤ q.length → addBundle q p l a d = none)
    ∧ (∀ (q : CloQueue) (zco l : Nat) (a : Timeval) (d : Nat)
        (q' : CloQueue),
      enqueueBundle q zco l a d = CloEnqueueOutcome.inserted q' →
      q'.count ≤ MAX_BUFFERED_BUNDLES)
    ∧ (∀ (q : CloQueue) (zco l : Nat) (a : Timeval) (d : Nat),
      MAX_BUFFERED_BUNDLES ≤ q.count → q.running = true →
      enqueueBundle q zco l a d = CloEnqueueOutcome.blocked)
    ∧ (∀ (q : TimedBundleQueue) (p l : Nat) (a : Timeval) (d : Nat),
      MOON_MAX_BUFFERED_BUNDLES ≤ q.count → q.running = true →
      enqueueTimedBundle q p l a d = MoonEnqueueOutcome.blocked)
    ∧ (∀ (q : List PTimedBundle) (p l : Nat) (a : Timeval) (d : Nat),
      MAX_TIMED_BUNDLES ≤ q.length → addTimedBundle q p l a d = none)
    ∧ (∀ (q : List PTimedBundle) (now : Timeval),
      q.length ≤ MAX_TIMED_BUNDLES →
      (presetProcessReady q now).length ≤ MAX_TIMED_BUNDLES) := by
  refine ⟨?_, ?_, ?_, ?_, ?_, ?_, ?_, ?_, ?_, ?_, ?_⟩
  · intro q p l a d q' h
    rw [addBundle] at h
    split at h
    · exact absurd h (by simp)
    · injection h with hq
      subst hq
      simp only [List.length_append, List.length_singleton]
      omega
  · intro q now h
    calc (processReadyBundles q now).length
        ≤ (markReady q now).length := List.length_filter_le _ _
      _ = q.length := List.length_map _ _
      _ ≤ MAX_QUEUED_BUNDLES := h
  · intro q p l a d q' h
    rw [addTimedBundle] at h
    split at h
    · exact absurd h (by simp)
    · injection h with hq
      subst hq
      simp only [List.length_append, List.length_singleton]
      omega
  · intro q p l a d q' h
    rw [enqueueTimedBundle] at h
    by_cases h1 : MOON_MAX_BUFFERED_BUNDLES ≤ q.count ∧ q.running = true
    · rw [if_pos h1] at h
      exact absurd h (by simp)
    · rw [if_neg h1] at h
      by_cases h2 : q.running = false
      · rw [if_pos h2] at h
        exact absurd h (by simp)
      · rw [if_neg h2] at h
        injection h with hq
        subst hq
        have hrun : q.running = true := by
          cases hr : q.running
          · exact absurd hr h2
          · rfl
        have hroom : ¬ MOON_MAX_BUFFERED_BUNDLES ≤ q.count :=
          fun hc => h1 ⟨hc, hrun⟩
        show q.count + 1 ≤ MOON_MAX_BUFFERED_BUNDLES
        omega
  · intro q now b q' hcount h
    rw [getReadyBundle] at h
    split at h
    · exact absurd h (by simp)
    · split at h
      · exact absurd h (by simp)
      · injection h with hp
        injection hp with hb hq
        subst hq
        show q.count - 1 ≤ MOON_MAX_BUFFERED_BUNDLES
        omega
  · intro q p l a d h
    rw [addBundle, if_pos h]
  · intro q zco l a d q' h
    rw [enqueueBundle] at h
    by_cases h1 : MAX_BUFFERED_BUNDLES ≤ q.count ∧ q.running = true
    · rw [if_pos h1] at h
      exact absurd h (by simp)
    · rw [if_neg h1] at h
      by_cases h2 : q.running = false
      · rw [if_pos h2] at h
        exact absurd h (by simp)
      · rw [if_neg h2] at h
        injection h with hq
        subst hq
        have hrun : q.running = true := by
          cases hr : q.running
          · exact absurd hr h2
          · rfl
        have hroom : ¬ MAX_BUFFERED_BUNDLES ≤ q.count :=
          fun hc => h1 ⟨hc, hrun⟩
        show q.count + 1 ≤ MAX_BUFFERED_BUNDLES
        omega
  · intro q zco l a d h1 h2
    rw [enqueueBundle, if_pos ⟨h1, h2⟩]
  · intro q p l a d h1 h2
    rw [enqueueTimedBundle, if_pos ⟨h1, h2⟩]
  · intro q p l a d h
    rw [addTimedBundle, if_pos h]
  · intro q now h
    calc (presetProcessReady q now).length
        ≤ (presetMarkReady q now).length := List.length_filter_le _ _
      _ = q.length := List.length_map _ _
      _ ≤ MAX_TIMED_BUNDLES := h

/-- C3 witness: a successful admission into the empty udpmarsdelaycli
queue respects the capacity bound, a scan of a one-element queue does
too (in both scanning variants), and a full running udpmarsdelayclo
queue blocks the admission instead of inserting past capacity. -/
theorem c3_capacity_invariant_witness :
    ([⟨1, 2, Timeval.addUsec ⟨0, 0⟩ 5⟩] : List QueuedBundle).length ≤
        MAX_QUEUED_BUNDLES
    ∧ (processReadyBundles [dummyQueued] ⟨5, 0⟩).length ≤ MAX_QUEUED_BUNDLES
    ∧ enqueueBundle fullCloQueue 3 4 ⟨0, 0⟩ 5 = CloEnqueueOutcome.blocked
    ∧ (presetProcessReady [dummyPTimed] ⟨5, 0⟩).length ≤ MAX_TIMED_BUNDLES :=
  ⟨c3_capacity_invariant.1 [] 1 2 ⟨0, 0⟩ 5 _ (by decide),
   c3_capacity_invariant.2.1 [dummyQueued] ⟨5, 0⟩ (by decide),
   c3_capacity_invariant.2.2.2.2.2.2.2.1 fullCloQueue 3 4 ⟨0, 0⟩ 5
     (by decide) rfl,
   c3_capacity_invariant.2.2.2.2.2.2.2.2.2.2 [dummyPTimed] ⟨5, 0⟩ (by decide)⟩

/-! Concrete states for the readiness-scan analysis. -/

def exTimedA : TimedBundle := ⟨true, 1, 5, ⟨0, 0⟩, ⟨10, 0⟩, 0, false⟩

def exTimedB : TimedBundle := ⟨true, 2, 5, ⟨0, 0⟩, ⟨10, 0⟩, 0, false⟩

def exMoonQueue : TimedBundleQueue := ⟨[exTimedA, exTimedB], 0, 2, 2, true⟩

def exMoonQueueAfter : TimedBundleQueue :=
  ⟨[⟨true, 1, 5, ⟨0, 0⟩, ⟨10, 0⟩, 0, true⟩, exTimedB], 0, 2, 1, true⟩

/-- C4 counterexample: at time 20 s both bundles of `exMoonQueue` have
release time 10 s ≤ now, yet one `getReadyBundle` scan marks and
returns only the first; one Pending ready item remains after the scan,
so the scan does not return all ready items. -/
theorem c4_counterexample :
    (getReadyBundle exMoonQueue ⟨20, 0⟩).map
        (fun r => (r.1, r.2.bundles.countP (readySlot ⟨20, 0⟩))) =
      some (exTimedA, 1) := by decide

/-- C4 (amended): the array-compaction scans of udpmarsdelaycli and
udppresetdelaycli do process exactly the pending items whose release
time is ≤ now and retain exactly the others; udpmoondelaycli's
`getReadyBundle` instead returns a single ready item per call — the
first eligible slot — marking it processed atomically with the scan,
so that no item is ever returned twice in any variant. -/
theorem c4_scan_ready :
    (∀ (q : List QueuedBundle) (now : Timeval),
      (∀ b ∈ q, 0 < b.length) →
      deliveredBundles q now = q.filter (fun b => readyAt now b.processTime)
      ∧ processReadyBundles q now =
          q.filter (fun b => !(readyAt now b.processTime))
      ∧ (deliveredBundles q now).length +
          (processReadyBundles q now).length = q.length)
    ∧ (∀ (q : List PTimedBundle) (now : Timeval),
      (∀ b ∈ q, b.processed = false) →
      presetDelivered q now = q.filter (fun b => readyAt now b.processTime)
      ∧ presetProcessReady q now =
          q.filter (fun b => !(readyAt now b.processTime))
      ∧ (presetDelivered q now).length +
          (presetProcessReady q now).length = q.length)
    ∧ (∀ (q : TimedBundleQueue) (now : Timeval) (b : TimedBundle)
        (q' : TimedBundleQueue),
      getReadyBundle q now = some (b, q') →
      readySlot now b = true ∧ b.processed = false ∧
      ∃ i, q.bundles[i]? = some b ∧
        q'.bundles = q.bundles.set i { b with processed := true }) := by
  refine ⟨?_, ?_, ?_⟩
  · intro q now h
    refine ⟨rfl, processReadyBundles_eq_filter q now h, ?_⟩
    rw [processReadyBundles_eq_filter q now h]
    exact length_filter_add_length_filter_not _ q
  · intro q now h
    have hd : presetDelivered q now =
        q.filter (fun b => readyAt now b.processTime) := by
      refine List.filter_congr ?_
      intro b hb
      simp [h b hb]
    refine ⟨hd, presetProcessReady_eq_filter q now h, ?_⟩
    rw [hd, presetProcessReady_eq_filter q now h]
    exact length_filter_add_length_filter_not _ q
  · intro q now b q' h
    exact getReadyBundle_spec q now b q' h

/-- C4 witness: a ready one-element udpmarsdelaycli queue is fully
drained by the scan, and the bundle returned by `getReadyBundle` on
`exMoonQueue` was eligible and unprocessed. -/
theorem c4_scan_ready_witness :
    ((deliveredBundles [dummyQueued] ⟨5, 0⟩).length +
        (processReadyBundles [dummyQueued] ⟨5, 0⟩).length = 1)
    ∧ readySlot ⟨20, 0⟩ exTimedA = true :=
  ⟨(c4_scan_ready.1 [dummyQueued] ⟨5, 0⟩ (by decide)).2.2,
   (c4_scan_ready.2.2 exMoonQueue ⟨20, 0⟩ exTimedA exMoonQueueAfter
      (by decide)).1⟩

/-- C5 counterexample: at a send whose cost is 100 µs, with 50 µs
elapsed since the previous billing timestamp and no prior balance, the
claimed formula prescribes a 50 µs sleep, but udppresetdelayclo's rate
control sleeps the full 100 µs cost (it keeps no elapsed-time credit). -/
theorem c5_counterexample :
    (presetRateSleep true true 100 : Int) ≠ specBalanceDue 50 0 100 := by
  decide

/-- C5 (amended): udpmarsdelayclo's billing iteration realizes exactly
the claimed formula — it sleeps `balanceDue = max(0, cost − credit)`
with `credit = max(0, elapsed − prevBalance)` and stores `balanceDue`
as the next `prevBalance`, and a zero cost (unknown or zero rate)
yields no pacing sleep; udppresetdelayclo instead sleeps the full
segment cost after each successful send when a rate is known, with no
credit for elapsed time, and sleeps nothing when the rate is unknown. -/
theorem c5_rate_limiter :
    (∀ elapsed prevPaid cost : Nat, elapsed < UINT_MOD →
      ((marsRateStep elapsed prevPaid cost).1 : Int) =
          specBalanceDue (elapsed : Int) (prevPaid : Int) (cost : Int)
        ∧ (marsRateStep elapsed prevPaid cost).2 =
            (marsRateStep elapsed prevPaid cost).1)
    ∧ (∀ elapsed prevPaid : Nat, (marsRateStep elapsed prevPaid 0).1 = 0)
    ∧ (∀ cost : Nat, presetRateSleep true true cost = cost)
    ∧ (∀ (sendOk : Bool) (cost : Nat), presetRateSleep sendOk false cost = 0) := by
  refine ⟨?_, ?_, ?_, ?_⟩
  · intro elapsed prevPaid cost h
    constructor
    · simp only [marsRateStep, specBalanceDue, Nat.mod_eq_of_lt h]
      split <;> split <;> push_cast <;> omega
    · simp only [marsRateStep]
  · intro elapsed prevPaid
    simp only [marsRateStep]
    split <;> split <;> omega
  · intro cost
    rfl
  · intro sendOk cost
    simp [presetRateSleep]

/-- C5 witness: the mars billing step at elapsed 50 µs, prior balance
0, cost 100 µs sleeps 50 µs as the claimed formula prescribes. -/
theorem c5_rate_limiter_witness :
    ((marsRateStep 50 0 100).1 : Int) = specBalanceDue 50 0 100 :=
  (c5_rate_limiter.1 50 0 100 (by decide)).1

/-- C6: with loss percentage 0, `shouldDropBundle` returns false on
every call and consumes no random draw (the index into the `rand()`
stream is unchanged), so zero items are dropped over any run. -/
theorem c6_no_loss_when_disabled (g : Nat → Nat) (i n : Nat) :
    shouldDropBundle 0 g i = (false, i) ∧ runDrops 0 g i n = 0 := by
  refine ⟨by simp [shouldDropBundle], ?_⟩
  induction n generalizing i with
  | zero => rfl
  | succ n ih => simp [runDrops, shouldDropBundle, ih]

/-- C7 counterexample: with loss percentage 100, the draw
`rand() = RAND_MAX` gives `random = (RAND_MAX/RAND_MAX)*100 = 100`,
and `100 < 100` is false, so `shouldDropBundle` returns 0 — that
bundle is not dropped. -/
theorem c7_counterexample :
    shouldDropBundle 100 (fun _ => C_RAND_MAX) 0 = (false, 1) := by
  have h1 : ¬ ((100 : ℚ) ≤ 0) := by norm_num
  have h2 : ¬ (randomPercent C_RAND_MAX < 100) := by
    norm_num [randomPercent]
  simp [shouldDropBundle, h1, h2]

/-- C7 (amended): with loss percentage 100, `shouldDropBundle` returns
1 for every random draw strictly below `RAND_MAX` (so all such items
are dropped), but returns 0 on the single draw equal to `RAND_MAX`. -/
theorem c7_full_loss (g : Nat → Nat) (i : Nat) :
    (g i < C_RAND_MAX → shouldDropBundle 100 g i = (true, i + 1))
    ∧ (g i = C_RAND_MAX → shouldDropBundle 100 g i = (false, i + 1)) := by
  have hM : (0 : ℚ) < (C_RAND_MAX : ℚ) := by norm_num
  have hno : ¬ ((100 : ℚ) ≤ 0) := by norm_num
  constructor
  · intro h
    have hq : ((g i : ℚ)) < (C_RAND_MAX : ℚ) := by exact_mod_cast h
    have h1 : ((g i : ℚ)) / (C_RAND_MAX : ℚ) < 1 := (div_lt_one hM).mpr hq
    have hlt : randomPercent (g i) < 100 := by
      have h2 := mul_lt_mul_of_pos_right h1
        (show (0 : ℚ) < 100 by norm_num)
      simpa [randomPercent] using h2
    simp [shouldDropBundle, hno, hlt]
  · intro h
    have hge : ¬ (randomPercent (g i) < 100) := by
      rw [h]
      norm_num [randomPercent]
    simp [shouldDropBundle, hno, hge]

/-- C7 witness: with loss percentage 100, the draw 0 is dropped and
the draw `RAND_MAX` is not. -/
theorem c7_full_loss_witness :
    shouldDropBundle 100 (fun _ => 0) 0 = (true, 1)
    ∧ shouldDropBundle 100 (fun _ => C_RAND_MAX) 3 = (false, 4) :=
  ⟨(c7_full_loss (fun _ => 0) 0).1 (by decide),
   (c7_full_loss (fun _ => C_RAND_MAX) 3).2 rfl⟩

/-- C8 counterexample: when `bpContinueAcq` fails in udpmoondelaycli
(and udppresetdelaycli), the `||` chain logs and returns -1 without
ever calling `bpCancelAcq`, contrary to the claim that an intermediate
failure cancels the acquisition. -/
theorem c8_counterexample :
    chainAcqCalls ⟨true, false, true⟩ =
        ([AcqCall.beginAcq, AcqCall.continueAcq], -1)
    ∧ AcqCall.cancelAcq ∉ (chainAcqCalls ⟨true, false, true⟩).1 := by
  decide

/-- C8 (amended): in every variant a failing acquisition step prevents
all subsequent steps from being called; on a `bpContinueAcq` failure
udpmarsdelaycli's `processBundle` calls `bpCancelAcq` before returning
the per-item error, but the acquisition chains of udpmoondelaycli and
udppresetdelaycli return the error without calling `bpCancelAcq` on
any path. -/
theorem c8_acquisition_sequencing :
    (∀ r : AcqResults, r.beginOk = false →
      AcqCall.continueAcq ∉ (marsAcqCalls r).1
      ∧ AcqCall.endAcq ∉ (marsAcqCalls r).1
      ∧ AcqCall.continueAcq ∉ (chainAcqCalls r).1
      ∧ AcqCall.endAcq ∉ (chainAcqCalls r).1)
    ∧ (∀ r : AcqResults, r.continueOk = false →
      AcqCall.endAcq ∉ (marsAcqCalls r).1
      ∧ AcqCall.endAcq ∉ (chainAcqCalls r).1)
    ∧ (∀ r : AcqResults, r.beginOk = true → r.continueOk = false →
      AcqCall.cancelAcq ∈ (marsAcqCalls r).1 ∧ (marsAcqCalls r).2 = -1)
    ∧ (∀ r : AcqResults, AcqCall.cancelAcq ∉ (chainAcqCalls r).1) := by
  refine ⟨?_, ?_, ?_, ?_⟩ <;>
    (intro r
     obtain ⟨b, c, e⟩ := r
     cases b <;> cases c <;> cases e <;> decide)

/-- C8 witness: with `bpBeginAcq` succeeding and `bpContinueAcq`
failing, udpmarsdelaycli cancels and returns -1, while the
moon/preset chain never reaches `bpEndAcq`. -/
theorem c8_acquisition_sequencing_witness :
    (AcqCall.cancelAcq ∈ (marsAcqCalls ⟨true, false, true⟩).1
      ∧ (marsAcqCalls ⟨true, false, true⟩).2 = -1)
    ∧ AcqCall.endAcq ∉ (chainAcqCalls ⟨true, false, true⟩).1 :=
  ⟨c8_acquisition_sequencing.2.2.1 ⟨true, false, true⟩ rfl rfl,
   (c8_acquisition_sequencing.2.1 ⟨true, false, true⟩ rfl).2⟩

/-- C9 counterexample: when `processTimedBundle` fails in
udpmoondelaycli's main loop, the daemon logs but sets `g_running = 0`
and breaks — the processing loop stops running, contrary to the claim
that it continues in both recoverable-error cases. -/
theorem c9_counterexample :
    moonCliMainStep true false = ⟨false, true⟩ := by decide

/-- C9 (amended): a queue-full rejection on admission logs and the
loop continues in udpmarsdelaycli and udpmoondelaycli, and a per-item
acquisition failure logs and continues in udpmarsdelaycli, but in
udpmoondelaycli an acquisition failure logs and terminates the main
processing loop. -/
theorem c9_recoverable_errors :
    (∀ len : Int, 1 < len → marsCliRecvStep len false = ⟨true, true⟩)
    ∧ marsCliProcStep false = ⟨true, true⟩
    ∧ moonCliEnqueueStep false = ⟨true, true⟩
    ∧ moonCliMainStep true false = ⟨false, true⟩ := by
  refine ⟨?_, by decide, by decide, by decide⟩
  intro len h
  rw [marsCliRecvStep, if_pos h]
  decide

/-- C9 witness: a 2-byte datagram that cannot be queued leaves
udpmarsdelaycli's loop running with a log entry. -/
theorem c9_recoverable_errors_witness :
    marsCliRecvStep 2 false = ⟨true, true⟩ :=
  c9_recoverable_errors.1 2 (by decide)

/-- C10 counterexample: in udpmarsdelayclo's `sendSingleBundle` the
drop path only marks the bundle processed — it neither destroys the
bundle's ZCO nor frees any payload storage, and udppresetdelayclo's
drop path likewise performs no `zco_destroy` — contrary to the claim
that a dropped item's payload storage is released. -/
theorem c10_counterexample :
    SendAct.zcoDestroy ∉ sendSingleBundleTrace false true true
    ∧ SendAct.freeData ∉ sendSingleBundleTrace false true true
    ∧ SendAct.zcoDestroy ∉ presetCloSendTrace true true true := by decide

/-- C10 (amended): every admission stores the arriving item without
consulting the loss model (a slot is always taken), an item whose
release time has not elapsed stays in the queue through every scan,
and the loss decision happens at release time in every variant; on a
drop, the cli variants and udpmoondelayclo release the dropped item's
payload/ZCO without delivering it, while udpmarsdelayclo and
udppresetdelayclo merely mark the dropped bundle processed without
destroying its ZCO. -/
theorem c10_loss_at_release :
    (∀ (q : List QueuedBundle) (p l : Nat) (a : Timeval) (d : Nat),
      ¬ MAX_QUEUED_BUNDLES ≤ q.length →
      addBundle q p l a d = some (q ++ [⟨p, l, a.addUsec d⟩]))
    ∧ (∀ (q : List QueuedBundle) (now : Timeval) (b : QueuedBundle),
      b ∈ q → readyAt now b.processTime = false → 0 < b.length →
      b ∈ processReadyBundles q now)
    ∧ (∀ drop acqOk : Bool,
      SendAct.dropCheck ∈ marsCliReleaseTrace drop acqOk
      ∧ SendAct.dropCheck ∈ moonCliReleaseTrace drop acqOk
      ∧ SendAct.dropCheck ∈ presetCliReleaseTrace drop acqOk)
    ∧ (∀ needSleep drop sendOk readOk rateKnown : Bool,
      SendAct.dropCheck ∈ sendSingleBundleTrace needSleep drop sendOk
      ∧ SendAct.dropCheck ∈ moonCloSendTrace drop readOk sendOk
      ∧ SendAct.dropCheck ∈ presetCloSendTrace drop sendOk rateKnown)
    ∧ (∀ acqOk : Bool,
      marsCliReleaseTrace true acqOk = [SendAct.dropCheck, SendAct.freeData]
      ∧ moonCliReleaseTrace true acqOk = [SendAct.dropCheck, SendAct.freeData]
      ∧ SendAct.acquire ∉ marsCliReleaseTrace true acqOk)
    ∧ (∀ readOk sendOk : Bool,
      moonCloSendTrace true readOk sendOk =
        [SendAct.dropCheck, SendAct.zcoDestroy])
    ∧ (∀ needSleep sendOk : Bool,
      SendAct.zcoDestroy ∉ sendSingleBundleTrace needSleep true sendOk
      ∧ SendAct.freeData ∉ sendSingleBundleTrace needSleep true sendOk
      ∧ SendAct.sendUdp ∉ sendSingleBundleTrace needSleep true sendOk
      ∧ SendAct.markProcessed ∈ sendSingleBundleTrace needSleep true sendOk)
    ∧ (∀ sendOk rateKnown : Bool,
      SendAct.zcoDestroy ∉ presetCloSendTrace true sendOk rateKnown
      ∧ SendAct.sendUdp ∉ presetCloSendTrace true sendOk rateKnown
      ∧ SendAct.markProcessed ∈ presetCloSendTrace true sendOk rateKnown) := by
  refine ⟨?_, ?_, ?_, ?_, ?_, ?_, ?_, ?_⟩
  · intro q p l a d h
    rw [addBundle, if_neg h]
  · intro q now b hb hr hl
    have h1 : b ∈ markReady q now := by
      have h2 := List.mem_map_of_mem
        (fun x : QueuedBundle =>
          if readyAt now x.processTime then { x with length := 0 } else x) hb
      simpa [markReady, hr] using h2
    exact List.mem_filter.mpr ⟨h1, by simpa using hl⟩
  · intro drop acqOk
    cases drop <;> cases acqOk <;> decide
  · intro needSleep drop sendOk readOk rateKnown
    cases needSleep <;> cases drop <;> cases sendOk <;> cases readOk <;>
      cases rateKnown <;> decide
  · intro acqOk
    cases acqOk <;> decide
  · intro readOk sendOk
    cases readOk <;> cases sendOk <;> decide
  · intro needSleep sendOk
    cases needSleep <;> cases sendOk <;> decide
  · intro sendOk rateKnown
    cases sendOk <;> cases rateKnown <;> decide

/-- C10 witness: an admission into the empty queue takes a slot, and a
not-yet-ready bundle survives the scan. -/
theorem c10_loss_at_release_witness :
    addBundle [] 1 2 ⟨0, 0⟩ 5 = some [⟨1, 2, Timeval.addUsec ⟨0, 0⟩ 5⟩]
    ∧ (⟨0, 2, ⟨10, 0⟩⟩ : QueuedBundle) ∈
        processReadyBundles [⟨0, 2, ⟨10, 0⟩⟩] ⟨0, 0⟩ :=
  ⟨c10_loss_at_release.1 [] 1 2 ⟨0, 0⟩ 5 (by decide),
   c10_loss_at_release.2.1 [⟨0, 2, ⟨10, 0⟩⟩] ⟨0, 0⟩ ⟨0, 2, ⟨10, 0⟩⟩
     (by decide) (by decide) (by decide)⟩

end IonDelay
